import Mathlib

/-!
Shallow embedding of `src/ptsim.c`, a single-level page-table simulator.

The simulated RAM `unsigned char mem[MEM_SIZE]` together with the global
counter `int free_page_count` is modelled as a `State`.  Bytes are `Nat`
values kept below 256 by taking `% 256` at every write (the semantics of
storing an `int` into an `unsigned char`).  The C `for` loops are embedded
as structurally recursive functions on an explicit iteration budget that
matches the loop bound, so that every definition evaluates by kernel
reduction on concrete inputs.
-/

def MEM_SIZE : Nat := 16384

def PAGE_SIZE : Nat := 256

def PAGE_COUNT : Nat := 64

def PAGE_SHIFT : Nat := 8

/-- The globals of ptsim.c: `unsigned char mem[MEM_SIZE]` and
`int free_page_count`.  `mem` is total over `Nat`; the program is supposed
to access only indices `< MEM_SIZE`, and out-of-range accesses of the C
program show up here as accesses at indices `≥ MEM_SIZE`. -/
structure State where
  mem : Nat → Nat
  free_page_count : Int

/-- `mem[a] = v` for `unsigned char` cells: the stored byte is `v % 256`. -/
def writeMem (s : State) (a v : Nat) : State :=
  { s with mem := fun i => if i = a then v % 256 else s.mem i }

/-- `get_address(page, offset)`: `(page << PAGE_SHIFT) | offset`. -/
def get_address (page offset : Nat) : Nat :=
  (page <<< PAGE_SHIFT) ||| offset

/-- `get_page_table(proc_num)`: `mem[PAGE_COUNT + proc_num]`. -/
def get_page_table (s : State) (proc_num : Nat) : Nat :=
  s.mem (PAGE_COUNT + proc_num)

/-- The loop `for (int i = 1; i > MEM_SIZE; i++) mem[i] = 0;` of
`initialize_mem`.  The continuation condition is `MEM_SIZE < i`, exactly as
written in the source; the budget argument only caps the iteration count. -/
def clear_loop : Nat → Nat → State → State
  | 0, _, s => s
  | fuel + 1, i, s =>
      if MEM_SIZE < i then clear_loop fuel (i + 1) (writeMem s i 0) else s

/-- `initialize_mem()`: sets `mem[0] = 1`, then runs the clearing loop
starting at `i = 1`. -/
def initialize_mem (s : State) : State :=
  clear_loop MEM_SIZE 1 (writeMem s 0 1)

/-- The scan loop of `find_page`: `for (unsigned char i = 1; i < PAGE_COUNT;
i++)`.  On the first `i` with `mem[i] == 0` it sets `mem[i] = 1`, decrements
`free_page_count` and returns `i`; if the scan finishes it returns `0xff`.
The budget starts at `PAGE_COUNT`, enough for the whole scan from `i = 1`. -/
def find_page_aux : Nat → Nat → State → Nat × State
  | 0, _, s => (0xff, s)
  | fuel + 1, i, s =>
      if i < PAGE_COUNT then
        if s.mem i = 0 then
          (i, { writeMem s i 1 with free_page_count := s.free_page_count - 1 })
        else
          find_page_aux fuel (i + 1) s
      else
        (0xff, s)

/-- `find_page()`: scan the free-page bitmap from index 1. -/
def find_page (s : State) : Nat × State :=
  find_page_aux PAGE_COUNT 1 s

/-- The data-page loop of `new_process`: for each `virtual_page_num` below
`page_count`, allocate a page and store its number in the page table at
`get_address(proc_page_table_num, virtual_page_num)`. -/
def np_loop (pt pc : Nat) : Nat → Nat → State → State
  | 0, _, s => s
  | fuel + 1, vpn, s =>
      if vpn < pc then
        let r := find_page s
        np_loop pt pc fuel (vpn + 1) (writeMem r.2 (get_address pt vpn) r.1)
      else s

/-- `new_process(proc_num, page_count)`: pre-check
`free_page_count < page_count`, then allocate the page-table page, record it
at `mem[PAGE_COUNT + proc_num]`, and run the data-page loop. -/
def new_process (s : State) (proc_num page_count : Nat) : State :=
  if s.free_page_count < (page_count : Int) then s
  else
    let r := find_page s
    let s2 := writeMem r.2 (PAGE_COUNT + proc_num) r.1
    np_loop r.1 page_count page_count 0 s2

/-- `deallocate_page(page_num)`: `mem[page_num] = 0`.  Note that it does not
touch `free_page_count`. -/
def deallocate_page (s : State) (page_num : Nat) : State :=
  writeMem s page_num 0

/-- The loop of `kill`: `for (int offset = 0; offset < PAGE_SIZE; offset++)`.
For each offset with a non-zero byte in the page-table page, deallocate the
referenced page and zero the page-table byte. -/
def kill_loop (pt : Nat) : Nat → Nat → State → State
  | 0, _, s => s
  | fuel + 1, off, s =>
      if off < PAGE_SIZE then
        let a := get_address pt off
        let s2 := if s.mem a ≠ 0 then writeMem (deallocate_page s (s.mem a)) a 0 else s
        kill_loop pt fuel (off + 1) s2
      else s

/-- `kill(proc_num)`: read the page-table page number once, run the loop over
all `PAGE_SIZE` offsets, then deallocate the page-table page itself. -/
def kill (s : State) (proc_num : Nat) : State :=
  let pt := get_page_table s proc_num
  deallocate_page (kill_loop pt PAGE_SIZE 0 s) pt

/-- `get_physical_address(process_num, virtual_address)`. -/
def get_physical_address (s : State) (process_num virtual_address : Nat) : Nat :=
  let virtual_page := virtual_address >>> PAGE_SHIFT
  let page_table_address := get_address (get_page_table s process_num) 0
  let physical_page_num := s.mem (page_table_address + virtual_page)
  let offset := virtual_address &&& (PAGE_SIZE - 1)
  get_address physical_page_num offset

/-- `store_value(proc_num, virtual_address, value)`: translate, then write
the byte (the diagnostic `printf` is not part of the state semantics). -/
def store_value (s : State) (proc_num virtual_address value : Nat) : State :=
  writeMem s (get_physical_address s proc_num virtual_address) value

/-- `read_value(proc_num, virtual_address)`: translate, then read the byte. -/
def read_value (s : State) (proc_num virtual_address : Nat) : Nat :=
  s.mem (get_physical_address s proc_num virtual_address)

/-- The statically initialized globals of the C program: a zeroed `mem` and
`free_page_count = PAGE_COUNT - 1`. -/
def zeroState : State :=
  { mem := fun _ => 0, free_page_count := (PAGE_COUNT : Int) - 1 }

/-- The fresh store: globals after `initialize_mem()` runs in `main`. -/
def initState : State :=
  initialize_mem zeroState

/-- The core operations a caller can invoke, for stating trace invariants. -/
inductive Op where
  | create (proc_num page_count : Nat)
  | destroy (proc_num : Nat)
  | store (proc_num virtual_address value : Nat)
  | load (proc_num virtual_address : Nat)

/-- State effect of one operation (`read_value` leaves the state alone). -/
def applyOp (s : State) : Op → State
  | .create p pc => new_process s p pc
  | .destroy p => kill s p
  | .store p va v => store_value s p va v
  | .load _ _ => s

/-- Caller-contract check for one operation: `destroy` only on a process
whose page-table entry is recorded (non-zero), `store` only through a mapped
page-table entry.  `create` and `load` need no condition for the zero-page
invariant. -/
def checkOp (s : State) : Op → Bool
  | .create _ _ => true
  | .destroy p => decide (1 ≤ get_page_table s p)
  | .store p va _ =>
      decide (s.mem (get_address (get_page_table s p) 0 + va >>> PAGE_SHIFT) ≠ 0)
  | .load _ _ => true

/-- Run a list of operations. -/
def applyOps (s : State) : List Op → State
  | [] => s
  | op :: rest => applyOps (applyOp s op) rest

/-- Check the caller contract along a whole trace. -/
def checkTrace (s : State) : List Op → Bool
  | [] => true
  | op :: rest => checkOp s op && checkTrace (applyOp s op) rest

/-! ## Basic lemmas about the embedding -/

theorem writeMem_mem (s : State) (a v i : Nat) :
    (writeMem s a v).mem i = if i = a then v % 256 else s.mem i := rfl

theorem writeMem_fpc (s : State) (a v : Nat) :
    (writeMem s a v).free_page_count = s.free_page_count := rfl

theorem left_le_lor (a b : Nat) : a ≤ a ||| b :=
  Nat.le_of_testBit fun i h => by rw [Nat.testBit_or, h, Bool.true_or]

theorem ga_eq (p o : Nat) (h : o < 256) : get_address p o = 256 * p + o := by
  show (p <<< PAGE_SHIFT) ||| o = 256 * p + o
  rw [Nat.shiftLeft_eq, Nat.mul_comm]
  have h8 : o < 2 ^ PAGE_SHIFT := by
    rw [show (2 : Nat) ^ PAGE_SHIFT = 256 from rfl]; exact h
  rw [← Nat.mul_add_lt_is_or h8 p]
  rw [show (2 : Nat) ^ PAGE_SHIFT = 256 from rfl]

theorem ga_lower (p o : Nat) (h : 1 ≤ p) : 256 ≤ get_address p o := by
  have h1 : p <<< PAGE_SHIFT ≤ (p <<< PAGE_SHIFT) ||| o := left_le_lor _ _
  have h2 : 256 ≤ p <<< PAGE_SHIFT := by
    rw [Nat.shiftLeft_eq, show (2 : Nat) ^ PAGE_SHIFT = 256 from rfl]
    calc 256 = 1 * 256 := by omega
    _ ≤ p * 256 := by exact Nat.mul_le_mul_right 256 h
  exact le_trans h2 h1

theorem clear_loop_skip (fuel i : Nat) (s : State) (h : ¬ MEM_SIZE < i) :
    clear_loop fuel i s = s := by
  cases fuel with
  | zero => rfl
  | succ f => simp [clear_loop, h]

theorem initialize_mem_eq (s : State) : initialize_mem s = writeMem s 0 1 :=
  clear_loop_skip MEM_SIZE 1 (writeMem s 0 1) (by simp [MEM_SIZE])

/-! ## The allocator scan -/

theorem find_page_aux_spec (fuel : Nat) : ∀ (i : Nat) (s : State),
    PAGE_COUNT ≤ i + fuel →
    ((∃ j, i ≤ j ∧ j < PAGE_COUNT ∧ s.mem j = 0 ∧
        (∀ l, i ≤ l → l < j → s.mem l ≠ 0) ∧
        find_page_aux fuel i s =
          (j, { writeMem s j 1 with free_page_count := s.free_page_count - 1 })) ∨
      ((∀ l, i ≤ l → l < PAGE_COUNT → s.mem l ≠ 0) ∧
        find_page_aux fuel i s = (0xff, s))) := by
  induction fuel with
  | zero =>
      intro i s hfi
      right
      exact ⟨fun l h1 h2 => absurd h2 (by omega), rfl⟩
  | succ fuel ih =>
      intro i s hfi
      by_cases hi : i < PAGE_COUNT
      · by_cases hm : s.mem i = 0
        · left
          exact ⟨i, Nat.le_refl i, hi, hm, fun l h1 h2 => absurd h2 (by omega),
            by simp [find_page_aux, hi, hm]⟩
        · rcases ih (i + 1) s (by omega) with ⟨j, hj1, hj2, hj3, hj4, hj5⟩ | ⟨h1, h2⟩
          · left
            refine ⟨j, by omega, hj2, hj3, ?_, by simp [find_page_aux, hi, hm]; exact hj5⟩
            intro l hl1 hl2
            rcases Nat.eq_or_lt_of_le hl1 with hl | hl
            · rw [← hl]; exact hm
            · exact hj4 l hl hl2
          · right
            refine ⟨?_, by simp [find_page_aux, hi, hm]; exact h2⟩
            intro l hl1 hl2
            rcases Nat.eq_or_lt_of_le hl1 with hl | hl
            · rw [← hl]; exact hm
            · exact h1 l hl hl2
      · right
        exact ⟨fun l h1 h2 => absurd h2 (by omega), by simp [find_page_aux, hi]⟩

theorem find_page_pos (s : State) : 1 ≤ (find_page s).1 := by
  rcases find_page_aux_spec PAGE_COUNT 1 s (by omega) with ⟨j, hj1, _, _, _, heq⟩ | ⟨_, heq⟩
  · show 1 ≤ (find_page_aux PAGE_COUNT 1 s).1
    rw [heq]; exact hj1
  · show 1 ≤ (find_page_aux PAGE_COUNT 1 s).1
    rw [heq]
    show (1 : Nat) ≤ 0xff
    omega

theorem find_page_mem_frame (s : State) (a : Nat) (ha : a = 0 ∨ PAGE_COUNT ≤ a) :
    (find_page s).2.mem a = s.mem a := by
  rcases find_page_aux_spec PAGE_COUNT 1 s (by omega) with ⟨j, hj1, hj2, _, _, heq⟩ | ⟨_, heq⟩
  · show (find_page_aux PAGE_COUNT 1 s).2.mem a = s.mem a
    rw [heq]
    show (writeMem s j 1).mem a = s.mem a
    rw [writeMem_mem, if_neg (by omega)]
  · show (find_page_aux PAGE_COUNT 1 s).2.mem a = s.mem a
    rw [heq]

/-! ## Stability of address translation under a single store -/

theorem gpa_after_write (s : State) (p va a v : Nat)
    (h1 : PAGE_COUNT + p ≠ a)
    (h2 : get_address (s.mem (PAGE_COUNT + p)) 0 + va >>> PAGE_SHIFT ≠ a) :
    get_physical_address (writeMem s a v) p va = get_physical_address s p va := by
  have e1 : (writeMem s a v).mem (PAGE_COUNT + p) = s.mem (PAGE_COUNT + p) := by
    rw [writeMem_mem, if_neg h1]
  show get_address
      ((writeMem s a v).mem
        (get_address ((writeMem s a v).mem (PAGE_COUNT + p)) 0 + va >>> PAGE_SHIFT))
      (va &&& (PAGE_SIZE - 1)) =
    get_address
      (s.mem (get_address (s.mem (PAGE_COUNT + p)) 0 + va >>> PAGE_SHIFT))
      (va &&& (PAGE_SIZE - 1))
  rw [e1, writeMem_mem, if_neg h2]

/-! ## Loop unfolding equations -/

theorem np_loop_succ (pt pc fuel vpn : Nat) (s : State) (hv : vpn < pc) :
    np_loop pt pc (fuel + 1) vpn s =
      np_loop pt pc fuel (vpn + 1)
        (writeMem (find_page s).2 (get_address pt vpn) (find_page s).1) := by
  simp [np_loop, hv]

theorem kill_loop_succ (pt fuel off : Nat) (s : State) (ho : off < PAGE_SIZE) :
    kill_loop pt (fuel + 1) off s =
      kill_loop pt fuel (off + 1)
        (if s.mem (get_address pt off) ≠ 0
         then writeMem (deallocate_page s (s.mem (get_address pt off))) (get_address pt off) 0
         else s) := by
  simp [kill_loop, ho]

theorem kill_loop_stop (pt fuel off : Nat) (s : State) (ho : ¬ off < PAGE_SIZE) :
    kill_loop pt fuel off s = s := by
  cases fuel with
  | zero => rfl
  | succ f => simp [kill_loop, ho]

/-! ## Preservation of the reserved-page bitmap byte `mem[0]` -/

theorem np_loop_mem0 (pt pc : Nat) (hpt : 1 ≤ pt) :
    ∀ fuel vpn s, s.mem 0 = 1 → (np_loop pt pc fuel vpn s).mem 0 = 1 := by
  intro fuel
  induction fuel with
  | zero => intro vpn s h; exact h
  | succ fuel ih =>
      intro vpn s h
      by_cases hv : vpn < pc
      · rw [np_loop_succ pt pc fuel vpn s hv]
        apply ih
        rw [writeMem_mem, if_neg (by have := ga_lower pt vpn hpt; omega)]
        rw [find_page_mem_frame s 0 (Or.inl rfl)]
        exact h
      · simp only [np_loop, if_neg hv]; exact h

theorem new_process_mem0 (s : State) (p pc : Nat) (h : s.mem 0 = 1) :
    (new_process s p pc).mem 0 = 1 := by
  unfold new_process
  by_cases hc : s.free_page_count < (pc : Int)
  · rw [if_pos hc]; exact h
  · rw [if_neg hc]
    show (np_loop (find_page s).1 pc pc 0
        (writeMem (find_page s).2 (PAGE_COUNT + p) (find_page s).1)).mem 0 = 1
    apply np_loop_mem0 _ _ (find_page_pos s)
    rw [writeMem_mem, if_neg (by have : PAGE_COUNT = 64 := rfl; omega)]
    rw [find_page_mem_frame s 0 (Or.inl rfl)]
    exact h

theorem kill_loop_mem0 (pt : Nat) (hpt : 1 ≤ pt) :
    ∀ fuel off s, s.mem 0 = 1 → (kill_loop pt fuel off s).mem 0 = 1 := by
  intro fuel
  induction fuel with
  | zero => intro off s h; exact h
  | succ fuel ih =>
      intro off s h
      by_cases ho : off < PAGE_SIZE
      · rw [kill_loop_succ pt fuel off s ho]
        apply ih
        by_cases hm : s.mem (get_address pt off) ≠ 0
        · rw [if_pos hm, writeMem_mem,
            if_neg (by have := ga_lower pt off hpt; omega)]
          show (writeMem s (s.mem (get_address pt off)) 0).mem 0 = 1
          rw [writeMem_mem, if_neg (fun hh => hm hh.symm)]
          exact h
        · rw [if_neg hm]; exact h
      · rw [kill_loop_stop pt (fuel + 1) off s ho]; exact h

theorem kill_mem0 (s : State) (p : Nat) (h : s.mem 0 = 1)
    (hpt : 1 ≤ get_page_table s p) : (kill s p).mem 0 = 1 := by
  show (deallocate_page (kill_loop (get_page_table s p) PAGE_SIZE 0 s)
      (get_page_table s p)).mem 0 = 1
  show (writeMem (kill_loop (get_page_table s p) PAGE_SIZE 0 s)
      (get_page_table s p) 0).mem 0 = 1
  rw [writeMem_mem, if_neg (by omega)]
  exact kill_loop_mem0 _ hpt PAGE_SIZE 0 s h

theorem store_value_mem0 (s : State) (p va v : Nat) (h : s.mem 0 = 1)
    (hc : s.mem (get_address (get_page_table s p) 0 + va >>> PAGE_SHIFT) ≠ 0) :
    (store_value s p va v).mem 0 = 1 := by
  show (writeMem s (get_physical_address s p va) v).mem 0 = 1
  have hdp : 1 ≤ s.mem (get_address (get_page_table s p) 0 + va >>> PAGE_SHIFT) :=
    Nat.one_le_iff_ne_zero.mpr hc
  have hbig : 256 ≤ get_physical_address s p va :=
    ga_lower _ (va &&& (PAGE_SIZE - 1)) hdp
  rw [writeMem_mem, if_neg (by omega)]
  exact h

theorem trace_mem0 : ∀ (ops : List Op) (s : State), s.mem 0 = 1 →
    checkTrace s ops = true → (applyOps s ops).mem 0 = 1 := by
  intro ops
  induction ops with
  | nil => intro s h _; exact h
  | cons op rest ih =>
      intro s h hc
      have hc2 : checkOp s op = true ∧ checkTrace (applyOp s op) rest = true := by
        simpa [checkTrace, Bool.and_eq_true] using hc
      refine ih (applyOp s op) ?_ hc2.2
      cases op with
      | create p pc => exact new_process_mem0 s p pc h
      | destroy p => exact kill_mem0 s p h (of_decide_eq_true hc2.1)
      | store p va v => exact store_value_mem0 s p va v h (of_decide_eq_true hc2.1)
      | load p va => exact h

/-! ## Exact effect of the `kill` loop -/

theorem kill_loop_spec (pt : Nat) (hpt1 : 1 ≤ pt) :
    ∀ fuel off s, PAGE_SIZE ≤ off + fuel →
      (∀ o, off ≤ o → o < PAGE_SIZE → PAGE_COUNT ≤ o → s.mem (get_address pt o) = 0) →
      (∀ o, off ≤ o → o < PAGE_COUNT → s.mem (get_address pt o) < PAGE_COUNT) →
      (∀ o, off ≤ o → o < PAGE_SIZE → (kill_loop pt fuel off s).mem (get_address pt o) = 0) ∧
      (∀ o, off ≤ o → o < PAGE_COUNT → s.mem (get_address pt o) ≠ 0 →
        (kill_loop pt fuel off s).mem (s.mem (get_address pt o)) = 0) ∧
      (∀ a, (∀ o, off ≤ o → o < PAGE_SIZE → a ≠ get_address pt o) →
            (∀ o, off ≤ o → o < PAGE_COUNT → s.mem (get_address pt o) ≠ 0 →
              a ≠ s.mem (get_address pt o)) →
        (kill_loop pt fuel off s).mem a = s.mem a) ∧
      (kill_loop pt fuel off s).free_page_count = s.free_page_count := by
  have c1 : PAGE_SIZE = 256 := rfl
  have c2 : PAGE_COUNT = 64 := rfl
  have hga : ∀ o, o < PAGE_SIZE → get_address pt o = 256 * pt + o := fun o ho =>
    ga_eq pt o (by omega)
  intro fuel
  induction fuel with
  | zero =>
      intro off s hfo hhi hent
      refine ⟨?_, ?_, fun a _ _ => rfl, rfl⟩
      · intro o h1 h2; omega
      · intro o h1 h2 _; omega
  | succ fuel ih =>
      intro off s hfo hhi hent
      by_cases ho : off < PAGE_SIZE
      case neg =>
        rw [kill_loop_stop pt (fuel + 1) off s ho]
        refine ⟨?_, ?_, fun a _ _ => rfl, rfl⟩
        · intro o h1 h2; omega
        · intro o h1 h2 _; omega
      case pos =>
        have hgaoff : get_address pt off = 256 * pt + off := hga off ho
        rw [kill_loop_succ pt fuel off s ho]
        by_cases hm : s.mem (get_address pt off) ≠ 0
        case neg =>
          rw [if_neg hm]
          have hE0 : s.mem (get_address pt off) = 0 := of_not_not hm
          obtain ⟨K1, K2, K3, K4⟩ :=
            ih (off + 1) s (by omega)
              (fun o h1 h2 h3 => hhi o (by omega) h2 h3)
              (fun o h1 h2 => hent o (by omega) h2)
          refine ⟨?_, ?_, ?_, K4⟩
          · intro o h1 h2
            rcases Nat.eq_or_lt_of_le h1 with h1e | h1l
            · have hfr := K3 (get_address pt off)
                (fun o2 ho2 ho2b => by
                  have e2 := hga o2 ho2b; omega)
                (fun o2 ho2 ho2b hne2 => by
                  have he := hent o2 (by omega) ho2b; omega)
              rw [← h1e, hfr]
              exact hE0
            · exact K1 o h1l h2
          · intro o h1 h2 h3
            rcases Nat.eq_or_lt_of_le h1 with h1e | h1l
            · rw [← h1e] at h3; exact absurd hE0 h3
            · exact K2 o h1l h2 h3
          · intro a ha1 ha2
            exact K3 a (fun o h1 h2 => ha1 o (by omega) h2)
              (fun o h1 h2 h3 => ha2 o (by omega) h2 h3)
        case pos =>
          rw [if_pos hm]
          have hoff64 : off < PAGE_COUNT := by
            by_contra hco
            exact hm (hhi off (Nat.le_refl off) ho (by omega))
          have helt : s.mem (get_address pt off) < PAGE_COUNT :=
            hent off (Nat.le_refl off) hoff64
          have hs2mem : ∀ x,
              (writeMem (deallocate_page s (s.mem (get_address pt off)))
                (get_address pt off) 0).mem x =
              if x = get_address pt off then 0
              else if x = s.mem (get_address pt off) then 0 else s.mem x := by
            intro x
            by_cases hx : x = get_address pt off <;>
              by_cases hx2 : x = s.mem (get_address pt off) <;>
              simp [writeMem_mem, deallocate_page, hx, hx2]
          have hs2ga : ∀ o, off + 1 ≤ o → o < PAGE_SIZE →
              (writeMem (deallocate_page s (s.mem (get_address pt off)))
                (get_address pt off) 0).mem (get_address pt o) =
              s.mem (get_address pt o) := by
            intro o h1 h2
            have e2 := hga o h2
            rw [hs2mem]
            rw [if_neg (by omega)]
            rw [if_neg (by omega)]
          obtain ⟨K1, K2, K3, K4⟩ :=
            ih (off + 1)
              (writeMem (deallocate_page s (s.mem (get_address pt off)))
                (get_address pt off) 0)
              (by omega)
              (fun o h1 h2 h3 => by rw [hs2ga o h1 h2]; exact hhi o (by omega) h2 h3)
              (fun o h1 h2 => by rw [hs2ga o h1 (by omega)]; exact hent o (by omega) h2)
          refine ⟨?_, ?_, ?_, ?_⟩
          · intro o h1 h2
            rcases Nat.eq_or_lt_of_le h1 with h1e | h1l
            · have hfr := K3 (get_address pt off)
                (fun o2 ho2 ho2b => by
                  have e2 := hga o2 ho2b; omega)
                (fun o2 ho2 ho2b hne2 => by
                  rw [hs2ga o2 ho2 (by omega)] at hne2 ⊢
                  have he := hent o2 (by omega) ho2b
                  omega)
              rw [← h1e, hfr, hs2mem, if_pos rfl]
            · exact K1 o h1l h2
          · intro o h1 h2 h3
            rcases Nat.eq_or_lt_of_le h1 with h1e | h1l
            · rw [← h1e]
              by_cases hec : ∃ o2, off + 1 ≤ o2 ∧ o2 < PAGE_COUNT ∧
                  (writeMem (deallocate_page s (s.mem (get_address pt off)))
                    (get_address pt off) 0).mem (get_address pt o2) ≠ 0 ∧
                  (writeMem (deallocate_page s (s.mem (get_address pt off)))
                    (get_address pt off) 0).mem (get_address pt o2) =
                    s.mem (get_address pt off)
              · obtain ⟨o2, ho2a, ho2b, ho2c, ho2d⟩ := hec
                have hK := K2 o2 ho2a ho2b ho2c
                rw [ho2d] at hK
                exact hK
              · push_neg at hec
                have hfr := K3 (s.mem (get_address pt off))
                  (fun o2 ho2 ho2b => by
                    have e2 := hga o2 ho2b; omega)
                  (fun o2 ho2 ho2b hne2 => fun he => (hec o2 ho2 ho2b hne2) he.symm)
                rw [hfr, hs2mem]
                rw [if_neg (by omega), if_pos rfl]
            · have h3b : (writeMem (deallocate_page s (s.mem (get_address pt off)))
                  (get_address pt off) 0).mem (get_address pt o) ≠ 0 := by
                rw [hs2ga o h1l (by omega)]; exact h3
              have hK := K2 o h1l h2 h3b
              rw [hs2ga o h1l (by omega)] at hK
              exact hK
          · intro a ha1 ha2
            have hfr := K3 a
              (fun o2 ho2 ho2b => ha1 o2 (by omega) ho2b)
              (fun o2 ho2 ho2b hne2 => by
                rw [hs2ga o2 ho2 (by omega)] at hne2 ⊢
                exact ha2 o2 (by omega) ho2b hne2)
            rw [hfr, hs2mem]
            rw [if_neg (ha1 off (Nat.le_refl off) ho),
              if_neg (ha2 off (Nat.le_refl off) hoff64 hm)]
          · rw [K4]
            show (writeMem (deallocate_page s (s.mem (get_address pt off)))
                (get_address pt off) 0).free_page_count = s.free_page_count
            rw [writeMem_fpc]
            show (writeMem s (s.mem (get_address pt off)) 0).free_page_count = _
            rw [writeMem_fpc]

/-! ## Claim theorems -/

/-- C3: whenever `free_page_count < page_count`, `new_process` fails
immediately and performs no allocation: the whole state (bitmap, process
table, counter) is unchanged. -/
theorem new_process_insufficient_noop (s : State) (p pc : Nat)
    (h : s.free_page_count < (pc : Int)) :
    new_process s p pc = s := by
  unfold new_process
  rw [if_pos h]

/-- C3 witness: in the initial state (63 free pages), `create_process(1, 64)`
fails without changing anything. -/
theorem new_process_insufficient_noop_witness :
    new_process initState 1 64 = initState ∧ initState.free_page_count = 63 :=
  ⟨new_process_insufficient_noop initState 1 64 (by decide), by decide⟩

/-- C4: on every state, `find_page` either returns the lowest index
`1 ≤ j < PAGE_COUNT` whose bitmap byte is `0`, marking it `1` and
decrementing `free_page_count`, or — when no such index exists — returns the
sentinel `0xff` with the state unchanged.  Index 0 plays no role in either
branch. -/
theorem find_page_first_fit (s : State) :
    (∃ j, 1 ≤ j ∧ j < PAGE_COUNT ∧ s.mem j = 0 ∧
        (∀ l, 1 ≤ l → l < j → s.mem l ≠ 0) ∧
        find_page s =
          (j, { writeMem s j 1 with free_page_count := s.free_page_count - 1 })) ∨
    ((∀ l, 1 ≤ l → l < PAGE_COUNT → s.mem l ≠ 0) ∧
      find_page s = (0xff, s)) :=
  find_page_aux_spec PAGE_COUNT 1 s (by omega)

/-- C10: `initialize_mem` writes only `mem[0] = 1`; its clearing loop guard
`i > MEM_SIZE` is false at `i = 1`, so every other byte and
`free_page_count` are untouched. -/
theorem initialize_mem_writes_only_byte_zero (s : State) :
    (initialize_mem s).mem 0 = 1 ∧
    (∀ i, i ≠ 0 → (initialize_mem s).mem i = s.mem i) ∧
    (initialize_mem s).free_page_count = s.free_page_count := by
  rw [initialize_mem_eq]
  refine ⟨?_, ?_, writeMem_fpc s 0 1⟩
  · rw [writeMem_mem, if_pos rfl]
  · intro i hi
    rw [writeMem_mem, if_neg hi]

/-- C10 witness: a pre-existing byte (`mem[3] = 9`) survives
`initialize_mem`. -/
theorem initialize_mem_writes_only_byte_zero_witness :
    (initialize_mem (writeMem zeroState 3 9)).mem 3 = 9 := by
  have h := (initialize_mem_writes_only_byte_zero (writeMem zeroState 3 9)).2.1 3 (by decide)
  rw [h]
  decide

/-- C6: the translator returns
`(page_table[va >> PAGE_SHIFT] << PAGE_SHIFT) | (va & (PAGE_SIZE-1))`, where
the page table is the byte array at the process's page-table page; no
validity check is made for entry `0`, so an unmapped page translates to an
address inside the reserved page (below `PAGE_SIZE`). -/
theorem get_physical_address_formula (s : State) (p va : Nat) :
    get_physical_address s p va =
      (s.mem ((get_page_table s p <<< PAGE_SHIFT) + va >>> PAGE_SHIFT) <<< PAGE_SHIFT) |||
        (va &&& (PAGE_SIZE - 1)) ∧
    (s.mem ((get_page_table s p <<< PAGE_SHIFT) + va >>> PAGE_SHIFT) = 0 →
      get_physical_address s p va = va &&& (PAGE_SIZE - 1) ∧
      get_physical_address s p va < PAGE_SIZE) := by
  have hbase : get_address (get_page_table s p) 0 = get_page_table s p <<< PAGE_SHIFT :=
    Nat.or_zero _
  have hgpa : get_physical_address s p va =
      get_address (s.mem ((get_page_table s p <<< PAGE_SHIFT) + va >>> PAGE_SHIFT))
        (va &&& (PAGE_SIZE - 1)) := by
    show get_address (s.mem (get_address (get_page_table s p) 0 + va >>> PAGE_SHIFT))
        (va &&& (PAGE_SIZE - 1)) = _
    rw [hbase]
  constructor
  · rw [hgpa]; rfl
  · intro h0
    rw [hgpa, h0]
    constructor
    · show (0 <<< PAGE_SHIFT) ||| (va &&& (PAGE_SIZE - 1)) = va &&& (PAGE_SIZE - 1)
      rw [Nat.zero_shiftLeft, Nat.zero_or]
    · show (0 <<< PAGE_SHIFT) ||| (va &&& (PAGE_SIZE - 1)) < PAGE_SIZE
      rw [Nat.zero_shiftLeft, Nat.zero_or]
      have h : va &&& (PAGE_SIZE - 1) ≤ PAGE_SIZE - 1 := Nat.and_le_right
      have c1 : PAGE_SIZE = 256 := rfl
      omega

/-- C6 witness: on the fresh store process 7 is unmapped, and translating
virtual address 300 lands at offset `300 & 255 = 44` inside the reserved
page. -/
theorem get_physical_address_formula_witness :
    get_physical_address initState 7 300 = 44 ∧
    get_physical_address initState 7 300 < PAGE_SIZE := by
  have h := (get_physical_address_formula initState 7 300).2 (by decide)
  exact ⟨h.1.trans (by decide), h.2⟩

/-- C5: storing a byte and immediately loading it back at the same virtual
address returns that byte; the hypotheses say that the process's page-table
entry for the addressed virtual page is a valid data page (non-zero and
distinct from the page-table page itself), exactly the situation after a
fresh, fully successful creation with `virtual_page va < page_count`. -/
theorem store_load_roundtrip (s : State) (p va v : Nat)
    (hp : PAGE_COUNT + p < PAGE_SIZE)
    (hvp : va >>> PAGE_SHIFT < PAGE_COUNT)
    (hv : v < 256)
    (hdp : 1 ≤ s.mem (get_address (get_page_table s p) 0 + va >>> PAGE_SHIFT))
    (hne : s.mem (get_address (get_page_table s p) 0 + va >>> PAGE_SHIFT) ≠
      get_page_table s p) :
    read_value (store_value s p va v) p va = v := by
  simp only [get_page_table] at hdp hne
  have c1 : PAGE_SIZE = 256 := rfl
  have c2 : PAGE_COUNT = 64 := rfl
  have hoffle : va &&& (PAGE_SIZE - 1) ≤ PAGE_SIZE - 1 := Nat.and_le_right
  have h1 : PAGE_COUNT + p ≠ get_physical_address s p va := by
    show PAGE_COUNT + p ≠
        get_address (s.mem (get_address (s.mem (PAGE_COUNT + p)) 0 + va >>> PAGE_SHIFT))
          (va &&& (PAGE_SIZE - 1))
    obtain ⟨OFF, hOFF⟩ : ∃ n, va &&& (PAGE_SIZE - 1) = n := ⟨_, rfl⟩
    obtain ⟨VP, hVP⟩ : ∃ n, va >>> PAGE_SHIFT = n := ⟨_, rfl⟩
    rw [hOFF] at hoffle ⊢
    rw [hVP] at hdp ⊢
    have hA2 := ga_eq (s.mem (get_address (s.mem (PAGE_COUNT + p)) 0 + VP)) OFF (by omega)
    omega
  have h2 : get_address (s.mem (PAGE_COUNT + p)) 0 + va >>> PAGE_SHIFT ≠
      get_physical_address s p va := by
    show get_address (s.mem (PAGE_COUNT + p)) 0 + va >>> PAGE_SHIFT ≠
        get_address (s.mem (get_address (s.mem (PAGE_COUNT + p)) 0 + va >>> PAGE_SHIFT))
          (va &&& (PAGE_SIZE - 1))
    obtain ⟨OFF, hOFF⟩ : ∃ n, va &&& (PAGE_SIZE - 1) = n := ⟨_, rfl⟩
    obtain ⟨VP, hVP⟩ : ∃ n, va >>> PAGE_SHIFT = n := ⟨_, rfl⟩
    rw [hOFF] at hoffle ⊢
    rw [hVP] at hvp hne ⊢
    have hA2 := ga_eq (s.mem (get_address (s.mem (PAGE_COUNT + p)) 0 + VP)) OFF (by omega)
    have hptp := ga_eq (s.mem (PAGE_COUNT + p)) 0 (by omega)
    omega
  show (writeMem s (get_physical_address s p va) v).mem
      (get_physical_address (writeMem s (get_physical_address s p va) v) p va) = v
  rw [gpa_after_write s p va _ v h1 h2, writeMem_mem, if_pos rfl, Nat.mod_eq_of_lt hv]

/-- C5 witness: after `create_process(5, 3)` on the fresh store, storing 99
at virtual address 529 (virtual page 2) and loading it back returns 99. -/
theorem store_load_roundtrip_witness :
    read_value (store_value (new_process initState 5 3) 5 529 99) 5 529 = 99 :=
  store_load_roundtrip (new_process initState 5 3) 5 529 99 (by decide) (by decide)
    (by decide) (by decide) (by decide)

/-- C7: a store by process `p` does not change what a distinct process `q`
loads at the same virtual address, provided `p`'s data page for that address
is valid and distinct from `q`'s page-table page and from `q`'s data page —
the situation for two fully created processes. -/
theorem store_isolation (s : State) (p q va v : Nat)
    (hq : PAGE_COUNT + q < PAGE_SIZE)
    (hvp : va >>> PAGE_SHIFT < PAGE_COUNT)
    (hdpA : 1 ≤ s.mem (get_address (get_page_table s p) 0 + va >>> PAGE_SHIFT))
    (hAptB : s.mem (get_address (get_page_table s p) 0 + va >>> PAGE_SHIFT) ≠
      get_page_table s q)
    (hAB : s.mem (get_address (get_page_table s p) 0 + va >>> PAGE_SHIFT) ≠
      s.mem (get_address (get_page_table s q) 0 + va >>> PAGE_SHIFT)) :
    read_value (store_value s p va v) q va = read_value s q va := by
  simp only [get_page_table] at hdpA hAptB hAB
  have c1 : PAGE_SIZE = 256 := rfl
  have c2 : PAGE_COUNT = 64 := rfl
  have hoffle : va &&& (PAGE_SIZE - 1) ≤ PAGE_SIZE - 1 := Nat.and_le_right
  have h1 : PAGE_COUNT + q ≠ get_physical_address s p va := by
    show PAGE_COUNT + q ≠
        get_address (s.mem (get_address (s.mem (PAGE_COUNT + p)) 0 + va >>> PAGE_SHIFT))
          (va &&& (PAGE_SIZE - 1))
    obtain ⟨OFF, hOFF⟩ : ∃ n, va &&& (PAGE_SIZE - 1) = n := ⟨_, rfl⟩
    obtain ⟨VP, hVP⟩ : ∃ n, va >>> PAGE_SHIFT = n := ⟨_, rfl⟩
    rw [hOFF] at hoffle ⊢
    rw [hVP] at hdpA ⊢
    have hA2 := ga_eq (s.mem (get_address (s.mem (PAGE_COUNT + p)) 0 + VP)) OFF (by omega)
    omega
  have h2 : get_address (s.mem (PAGE_COUNT + q)) 0 + va >>> PAGE_SHIFT ≠
      get_physical_address s p va := by
    show get_address (s.mem (PAGE_COUNT + q)) 0 + va >>> PAGE_SHIFT ≠
        get_address (s.mem (get_address (s.mem (PAGE_COUNT + p)) 0 + va >>> PAGE_SHIFT))
          (va &&& (PAGE_SIZE - 1))
    obtain ⟨OFF, hOFF⟩ : ∃ n, va &&& (PAGE_SIZE - 1) = n := ⟨_, rfl⟩
    obtain ⟨VP, hVP⟩ : ∃ n, va >>> PAGE_SHIFT = n := ⟨_, rfl⟩
    rw [hOFF] at hoffle ⊢
    rw [hVP] at hvp hAptB ⊢
    have hA2 := ga_eq (s.mem (get_address (s.mem (PAGE_COUNT + p)) 0 + VP)) OFF (by omega)
    have hptq := ga_eq (s.mem (PAGE_COUNT + q)) 0 (by omega)
    omega
  have h3 : get_physical_address s q va ≠ get_physical_address s p va := by
    show get_address (s.mem (get_address (s.mem (PAGE_COUNT + q)) 0 + va >>> PAGE_SHIFT))
          (va &&& (PAGE_SIZE - 1)) ≠
        get_address (s.mem (get_address (s.mem (PAGE_COUNT + p)) 0 + va >>> PAGE_SHIFT))
          (va &&& (PAGE_SIZE - 1))
    obtain ⟨OFF, hOFF⟩ : ∃ n, va &&& (PAGE_SIZE - 1) = n := ⟨_, rfl⟩
    obtain ⟨VP, hVP⟩ : ∃ n, va >>> PAGE_SHIFT = n := ⟨_, rfl⟩
    rw [hOFF] at hoffle ⊢
    rw [hVP] at hAB ⊢
    have hA2 := ga_eq (s.mem (get_address (s.mem (PAGE_COUNT + p)) 0 + VP)) OFF (by omega)
    have hB2 := ga_eq (s.mem (get_address (s.mem (PAGE_COUNT + q)) 0 + VP)) OFF (by omega)
    omega
  show (writeMem s (get_physical_address s p va) v).mem
      (get_physical_address (writeMem s (get_physical_address s p va) v) q va) =
    s.mem (get_physical_address s q va)
  rw [gpa_after_write s q va _ v h1 h2, writeMem_mem, if_neg h3]

/-- C7 witness: with processes 1 and 2 each created with two pages on the
fresh store, a store by process 1 at virtual address 265 leaves process 2's
load at 265 unchanged. -/
theorem store_isolation_witness :
    read_value (store_value (new_process (new_process initState 1 2) 2 2) 1 265 55) 2 265 =
      read_value (new_process (new_process initState 1 2) 2 2) 2 265 :=
  store_isolation (new_process (new_process initState 1 2) 2 2) 1 2 265 55
    (by decide) (by decide) (by decide) (by decide) (by decide)

/-- C8: `mem[0]` (the reserved page's own bitmap byte) is `1` after
initialization and stays `1` along every trace of create/destroy/store/load
operations whose caller contracts hold (`destroy` only on a process with a
recorded page table, `store` only through a mapped entry). -/
theorem zero_page_invariant (ops : List Op)
    (h : checkTrace initState ops = true) :
    initState.mem 0 = 1 ∧ (applyOps initState ops).mem 0 = 1 :=
  ⟨by decide, trace_mem0 ops initState (by decide) h⟩

/-- C8 witness: a full create/store/load/destroy trace keeps `mem[0] = 1`. -/
theorem zero_page_invariant_witness :
    checkTrace initState [Op.create 5 3, Op.store 5 0 99, Op.load 5 0, Op.destroy 5] = true ∧
    (applyOps initState [Op.create 5 3, Op.store 5 0 99, Op.load 5 0, Op.destroy 5]).mem 0 = 1 :=
  ⟨by decide,
    (zero_page_invariant [Op.create 5 3, Op.store 5 0 99, Op.load 5 0, Op.destroy 5]
      (by decide)).2⟩

set_option maxRecDepth 100000 in
/-- C1: on a fresh store, `create_process(5, 3)` then `destroy_process(5)`
leaves every bitmap entry of the four pages allocated for the process
(page-table page 1 and data pages 2, 3, 4) at `0`, but leaves
`free_page_count` at `59` instead of restoring the pre-creation value `63`:
`deallocate_page` only clears the bitmap byte and never increments the
counter. -/
theorem teardown_counter_divergence :
    (kill (new_process initState 5 3) 5).mem 1 = 0 ∧
    (kill (new_process initState 5 3) 5).mem 2 = 0 ∧
    (kill (new_process initState 5 3) 5).mem 3 = 0 ∧
    (kill (new_process initState 5 3) 5).mem 4 = 0 ∧
    initState.free_page_count = 63 ∧
    (kill (new_process initState 5 3) 5).free_page_count = 59 := by
  decide

set_option maxRecDepth 100000 in
/-- C2 counterexample: a contract-respecting trace (every creation has
enough pages, stores go through mapped entries, kills hit active processes)
after which process 3's page-table page is physical page 3, whose byte at
offset 100 still holds the stale value 7 left by an earlier store of
process 1.  Bitmap entry 7 is `1` (a data page of the active process 4) and
no page-table entry of process 3 at a virtual page index below `PAGE_COUNT`
references page 7, yet `kill 3` sets bitmap entry 7 to `0`: the loop scans
all `PAGE_SIZE` offsets, not just `PAGE_COUNT`. -/
theorem kill_frees_unreferenced_page_cex :
    checkTrace initState
      [Op.create 1 2, Op.store 1 356 7, Op.destroy 1, Op.create 2 1,
        Op.create 3 1, Op.create 4 3] = true ∧
    get_page_table (applyOps initState
      [Op.create 1 2, Op.store 1 356 7, Op.destroy 1, Op.create 2 1,
        Op.create 3 1, Op.create 4 3]) 3 = 3 ∧
    (applyOps initState
      [Op.create 1 2, Op.store 1 356 7, Op.destroy 1, Op.create 2 1,
        Op.create 3 1, Op.create 4 3]).mem 7 = 1 ∧
    (∀ o, o < PAGE_COUNT → (applyOps initState
      [Op.create 1 2, Op.store 1 356 7, Op.destroy 1, Op.create 2 1,
        Op.create 3 1, Op.create 4 3]).mem (get_address 3 o) ≠ 7) ∧
    (kill (applyOps initState
      [Op.create 1 2, Op.store 1 356 7, Op.destroy 1, Op.create 2 1,
        Op.create 3 1, Op.create 4 3]) 3).mem 7 = 0 := by
  decide

/-- C2 (amended): `kill p` scans all `PAGE_SIZE` byte offsets of the
page-table page, not only the `PAGE_COUNT` virtual page indices.  Provided
the bytes at offsets `PAGE_COUNT … PAGE_SIZE-1` are all zero and the entries
below `PAGE_COUNT` hold physical page numbers below `PAGE_COUNT` (as after a
clean creation), it frees exactly the pages referenced by the non-zero
entries, zeroes those entries, frees the page-table page itself, changes no
other byte — in particular no other bitmap entry — and leaves
`free_page_count` alone. -/
theorem kill_spec_amended (s : State) (p : Nat)
    (hpt1 : 1 ≤ get_page_table s p)
    (hhi : ∀ o, o < PAGE_SIZE → PAGE_COUNT ≤ o →
      s.mem (get_address (get_page_table s p) o) = 0)
    (hent : ∀ o, o < PAGE_COUNT →
      s.mem (get_address (get_page_table s p) o) < PAGE_COUNT) :
    (∀ o, o < PAGE_SIZE → (kill s p).mem (get_address (get_page_table s p) o) = 0) ∧
    (∀ o, o < PAGE_COUNT → s.mem (get_address (get_page_table s p) o) ≠ 0 →
      (kill s p).mem (s.mem (get_address (get_page_table s p) o)) = 0) ∧
    (kill s p).mem (get_page_table s p) = 0 ∧
    (∀ a, a ≠ get_page_table s p →
      (∀ o, o < PAGE_SIZE → a ≠ get_address (get_page_table s p) o) →
      (∀ o, o < PAGE_COUNT → s.mem (get_address (get_page_table s p) o) ≠ 0 →
        a ≠ s.mem (get_address (get_page_table s p) o)) →
      (kill s p).mem a = s.mem a) ∧
    (kill s p).free_page_count = s.free_page_count := by
  have c1 : PAGE_SIZE = 256 := rfl
  obtain ⟨K1, K2, K3, K4⟩ :=
    kill_loop_spec (get_page_table s p) hpt1 PAGE_SIZE 0 s (by omega)
      (fun o _ h2 h3 => hhi o h2 h3)
      (fun o _ h2 => hent o h2)
  have hga : ∀ o, o < PAGE_SIZE →
      get_address (get_page_table s p) o = 256 * get_page_table s p + o :=
    fun o ho => ga_eq _ o (by omega)
  have hkill : ∀ x, (kill s p).mem x =
      if x = get_page_table s p then 0
      else (kill_loop (get_page_table s p) PAGE_SIZE 0 s).mem x := by
    intro x
    show (writeMem (kill_loop (get_page_table s p) PAGE_SIZE 0 s)
        (get_page_table s p) 0).mem x = _
    by_cases hx : x = get_page_table s p <;> simp [writeMem_mem, hx]
  refine ⟨?_, ?_, ?_, ?_, ?_⟩
  · intro o h2
    rw [hkill, if_neg (by have := hga o h2; omega)]
    exact K1 o (Nat.zero_le o) h2
  · intro o h2 h3
    rw [hkill]
    by_cases hc : s.mem (get_address (get_page_table s p) o) = get_page_table s p
    · rw [if_pos hc]
    · rw [if_neg hc]
      exact K2 o (Nat.zero_le o) h2 h3
  · rw [hkill, if_pos rfl]
  · intro a ha0 ha1 ha2
    rw [hkill, if_neg ha0]
    exact K3 a (fun o _ h2 => ha1 o h2) (fun o _ h2 h3 => ha2 o h2 h3)
  · show (writeMem (kill_loop (get_page_table s p) PAGE_SIZE 0 s)
        (get_page_table s p) 0).free_page_count = s.free_page_count
    rw [writeMem_fpc]
    exact K4

set_option maxRecDepth 100000 in
/-- C2 witness: the amended theorem applies to process 5 freshly created
with three pages on the fresh store; killing it frees its page-table page. -/
theorem kill_spec_amended_witness :
    (kill (new_process initState 5 3) 5).mem (get_page_table (new_process initState 5 3) 5) = 0 :=
  (kill_spec_amended (new_process initState 5 3) 5 (by decide) (by decide) (by decide)).2.2.1

set_option maxRecDepth 100000 in
/-- C9: exhausting the allocator mid-creation records the sentinel `0xff` as
a page-table entry.  After `create_process(1, 63)` on the fresh store (the
pre-check `63 < 63` passes, but 64 pages are needed), the entry for virtual
page 62 is `0xff`, and a store through it resolves to physical address
`0xff << PAGE_SHIFT = 65280 ≥ MEM_SIZE`, writing far beyond the physical
store. -/
theorem exhaustion_sentinel_overflow :
    (new_process initState 1 63).mem (get_address 1 62) = 0xff ∧
    get_physical_address (new_process initState 1 63) 1 (62 * PAGE_SIZE) =
      0xff <<< PAGE_SHIFT ∧
    MEM_SIZE ≤ get_physical_address (new_process initState 1 63) 1 (62 * PAGE_SIZE) ∧
    (store_value (new_process initState 1 63) 1 (62 * PAGE_SIZE) 7).mem
      (0xff <<< PAGE_SHIFT) = 7 := by
  decide
